import Mathlib

/-!
Shallow embedding of the editing engine of `src/txtedit.c` (a kilo-style
terminal text editor) and proofs about it.

Conventions of the embedding:
* C byte strings become `List Char`; a row keeps only its logical `chars`,
  and `render`, `size`, `rsize` are derived (the C regenerates `render`
  via `editor_update_row` after every mutation, so `render` is always the
  pure function of `chars` modelled here).
* C `int` values (cursor coordinates, offsets, counters, indices) become
  `Int`; guards are translated literally from the C comparisons.
* Out-of-bounds memory accesses that the C never guards are modelled with
  `Option` (`none` = undefined behaviour) where a claim depends on them,
  and with a default row (`getRow`) where the calling code guarantees the
  index is in range.
-/

namespace TxtEdit

/-- TAB_STOP from the source. -/
def TAB_STOP : Int := 8

/-- QUIT_TIMES from the source. -/
def QUIT_TIMES : Int := 3

/-- An editor row: the logical content. `render`, `size` and `rsize` are
derived below, mirroring the invariant that `editor_update_row` is called
after every mutation of `chars`. -/
structure ERow where
  chars : List Char
deriving DecidableEq

/-- One iteration of the render loop of `editor_update_row`: a tab emits one
space and then pads with spaces until the render index is a multiple of
TAB_STOP; any other byte is copied through. -/
def render_step (acc : List Char) (c : Char) : List Char :=
  if c = '\t' then
    let acc1 := acc ++ [' ']
    acc1 ++ List.replicate ((8 - acc1.length % 8) % 8) ' '
  else
    acc ++ [c]

/-- Derived render of a row, as built by `editor_update_row`. -/
def ERow.render (r : ERow) : List Char :=
  r.chars.foldl render_step []

/-- Logical size of a row (the C `size` field). -/
def ERow.size (r : ERow) : Int :=
  r.chars.length

/-- Rendered size of a row (the C `rsize` field). -/
def ERow.rsize (r : ERow) : Int :=
  r.render.length

/-- cx_to_rx from the source: walk the first `cx` characters, a tab advances
`rx` by `(TAB_STOP - 1) - rx % TAB_STOP` and then every character adds 1. -/
def cx_to_rx (row : ERow) (cx : Int) : Int :=
  (row.chars.take cx.toNat).foldl
    (fun rx c => (if c = '\t' then rx + (TAB_STOP - 1) - rx % TAB_STOP else rx) + 1) 0

/-- Loop body of rx_to_cx from the source: `cx` runs over the whole row while
`cur_rx` accumulates rendered width; the source contains no early exit, so
the loop always runs to `row->size`. -/
def rx_to_cx_loop (chars : List Char) (cur_rx : Int) (cx : Int) : Int :=
  match chars with
  | [] => cx
  | c :: rest =>
      rx_to_cx_loop rest
        ((if c = '\t' then cur_rx + (TAB_STOP - 1) - cur_rx % TAB_STOP else cur_rx) + 1)
        (cx + 1)

/-- rx_to_cx from the source. The `rx` parameter is never read, exactly as in
the C, where the loop has no break and its result `cx` always equals
`row->size`. -/
def rx_to_cx (row : ERow) (rx : Int) : Int :=
  rx_to_cx_loop row.chars 0 0

/-- Editor state: the fields of `struct EditorConfig` that the editing engine
reads and writes (terminal plumbing fields are omitted). `num_rows` is derived
as the length of `rows`. -/
structure EState where
  cursor_x : Int
  cursor_y : Int
  rx : Int
  row_offset : Int
  col_offset : Int
  screen_rows : Int
  screen_cols : Int
  rows : List ERow
  dirty : Int
deriving DecidableEq

/-- Derived `E.num_rows`. -/
def EState.num_rows (E : EState) : Int :=
  E.rows.length

/-- Row lookup by natural index; an out-of-range index yields the empty row
(the C performs an unchecked array access there, which every translated call
site either guards or reaches only with an in-range index). -/
def getRowN : List ERow → Nat → ERow
  | [], _ => ⟨[]⟩
  | r :: _, 0 => r
  | _ :: rs, n + 1 => getRowN rs n

/-- Row lookup by C int index (`E.rows[i]`). -/
def getRow (rows : List ERow) (i : Int) : ERow :=
  getRowN rows i.toNat

/-- editor_insert_row: a silently rejected no-op when `at` is outside
`[0, num_rows]`, otherwise the row is inserted and `dirty` incremented. -/
def editor_insert_row (E : EState) (at_ : Int) (s : List Char) : EState :=
  if at_ < 0 ∨ at_ > E.num_rows then E
  else { E with rows := E.rows.insertIdx at_.toNat ⟨s⟩, dirty := E.dirty + 1 }

/-- delete_row: a silently rejected no-op when `at` is outside
`[0, num_rows)`, otherwise the row is removed and `dirty` incremented. -/
def delete_row (E : EState) (at_ : Int) : EState :=
  if at_ < 0 ∨ at_ ≥ E.num_rows then E
  else { E with rows := E.rows.eraseIdx at_.toNat, dirty := E.dirty + 1 }

/-- row_insert_char: an out-of-range `at` is clamped to `size` (append). The
second component is the increment applied to `E.dirty` by the call. -/
def row_insert_char (r : ERow) (at_ : Int) (c : Char) : ERow × Int :=
  let at1 := if at_ < 0 ∨ at_ > r.size then r.size else at_
  (⟨r.chars.insertIdx at1.toNat c⟩, 1)

/-- row_append_string. The second component is the increment applied to
`E.dirty` by the call. -/
def row_append_string (r : ERow) (s : List Char) : ERow × Int :=
  (⟨r.chars ++ s⟩, 1)

/-- row_delete_char from the source. The guard is `at < 0 || at > row->size`
(`>`, not `>=`, so `at = size` passes the guard); on the mutating path the C
shifts the buffer left from `at` and decrements `size`, so the new logical
content is the first `size - 1` bytes of `take at ++ drop (at+1)`. The second
component is the increment applied to `E.dirty` by the call. -/
def row_delete_char (r : ERow) (at_ : Int) : ERow × Int :=
  if at_ < 0 ∨ at_ > r.size then (r, 0)
  else
    (⟨(r.chars.take at_.toNat ++ r.chars.drop (at_.toNat + 1)).take (r.chars.length - 1)⟩, 1)

/-- insert_char: when the cursor sits one past the last line a fresh empty row
is appended first; then the character goes in at `cursor_x` and the cursor
advances. -/
def insert_char (E : EState) (c : Char) : EState :=
  let E1 := if E.cursor_y = E.num_rows then editor_insert_row E E.num_rows [] else E
  let r := getRow E1.rows E1.cursor_y
  let rd := row_insert_char r E1.cursor_x c
  { E1 with rows := E1.rows.set E1.cursor_y.toNat rd.1,
            dirty := E1.dirty + rd.2,
            cursor_x := E1.cursor_x + 1 }

/-- insert_newline: at column 0 an empty row is inserted above; otherwise the
tail of the current row from `cursor_x` becomes a new row below and the
current row is truncated at `cursor_x`. The cursor moves to column 0 of the
next row. -/
def insert_newline (E : EState) : EState :=
  let E1 :=
    if E.cursor_x = 0 then
      editor_insert_row E E.cursor_y []
    else
      let row := getRow E.rows E.cursor_y
      let E2 := editor_insert_row E (E.cursor_y + 1) (row.chars.drop E.cursor_x.toNat)
      { E2 with rows := E2.rows.set E.cursor_y.toNat ⟨row.chars.take E.cursor_x.toNat⟩ }
  { E1 with cursor_y := E.cursor_y + 1, cursor_x := 0 }

/-- delete_char: deletes the character left of the cursor, or at column 0 of a
non-first line appends the current line to the previous one and removes it. -/
def delete_char (E : EState) : EState :=
  if E.cursor_y = E.num_rows then E
  else if E.cursor_x = 0 ∧ E.cursor_y = 0 then E
  else
    let row := getRow E.rows E.cursor_y
    if E.cursor_x > 0 then
      let rd := row_delete_char row (E.cursor_x - 1)
      { E with rows := E.rows.set E.cursor_y.toNat rd.1,
               dirty := E.dirty + rd.2,
               cursor_x := E.cursor_x - 1 }
    else
      let prev := getRow E.rows (E.cursor_y - 1)
      let pd := row_append_string prev row.chars
      let E1 := { E with cursor_x := prev.size,
                         rows := E.rows.set (E.cursor_y - 1).toNat pd.1,
                         dirty := E.dirty + pd.2 }
      let E2 := delete_row E1 E.cursor_y
      { E2 with cursor_y := E.cursor_y - 1 }

/-- rows_to_string from the source: the reported length `*buflen` sums
`rsize + 1` over the rows, while the bytes actually written into the buffer
are each row's `chars` (`size` bytes) followed by a newline. The first
component is the initialized content of the buffer, the second the reported
length. -/
def rows_to_string (rows : List ERow) : List Char × Int :=
  let totlen := rows.foldl (fun t r => t + (r.rsize + 1)) 0
  let buf := (rows.map (fun r => r.chars ++ ['\n'])).flatten
  (buf, totlen)

/-- Substring containment, the behaviour of `strstr` that find_callback
depends on (only existence of a match matters downstream, because rx_to_cx
never reads the offset it is handed). -/
def str_contains (hay needle : List Char) : Bool :=
  hay.tails.any (fun t => needle.isPrefixOf t)

/-- Static state of find_callback (`last_match` and `direction`). -/
structure FindState where
  last_match : Int
  direction : Int
deriving DecidableEq

/-- Scan loop of find_callback: at most `fuel = num_rows` steps; `current`
advances by `direction`, and only the backward wrap (`current == -1` resets to
`num_rows - 1`) exists in the source — there is no forward wrap, so `current`
can reach `num_rows`, where the C reads `E.rows[current]` out of bounds;
that is modelled as `none`. `some none` means the scan finished without a
match, `some (some i)` that row `i` matched. -/
def find_scan (rows : List ERow) (query : List Char) (direction : Int) :
    Int → Nat → Option (Option Int)
  | _, 0 => some none
  | current, i + 1 =>
    let c1 := current + direction
    let c2 := if c1 = -1 then (rows.length : Int) - 1 else c1
    if 0 ≤ c2 ∧ c2 < (rows.length : Int) then
      if str_contains (getRow rows c2).chars query then some (some c2)
      else find_scan rows query direction c2 i
    else none

/-- find_callback from the source. Enter and Escape reset the static state and
return; arrow keys set the direction; any other key resets to a fresh forward
search. The scan matches `strstr(row->chars, query)`; on a match the cursor
jumps to the matching row, `cursor_x` is set from `rx_to_cx` (the C passes the
undefined pointer difference `match - row->render`, which rx_to_cx never
reads, so 0 is passed here), and `row_offset` is set to `num_rows`. `none`
models the out-of-bounds row access in the scan. -/
def find_callback (query : List Char) (key : Int) (fs : FindState) (E : EState) :
    Option (FindState × EState) :=
  if key = 13 ∨ key = 27 then some ({ last_match := -1, direction := 1 }, E)
  else
    let fs1 : FindState :=
      if key = 1001 ∨ key = 1003 then { fs with direction := 1 }
      else if key = 1000 ∨ key = 1002 then { fs with direction := -1 }
      else { last_match := -1, direction := 1 }
    let fs2 : FindState :=
      { fs1 with direction := if fs1.last_match = -1 then 1 else fs1.direction }
    match find_scan E.rows query fs2.direction fs2.last_match E.rows.length with
    | none => none
    | some none => some (fs2, E)
    | some (some cur) =>
        some ({ fs2 with last_match := cur },
              { E with cursor_y := cur,
                       cursor_x := rx_to_cx (getRow E.rows cur) 0,
                       row_offset := E.num_rows })

/-- editor_scroll from the source: recompute `rx`, then pull each offset up or
down so the cursor is inside the visible rectangle. -/
def editor_scroll (E : EState) : EState :=
  let rx := if E.cursor_y < E.num_rows then cx_to_rx (getRow E.rows E.cursor_y) E.cursor_x else 0
  let ro1 := if E.cursor_y < E.row_offset then E.cursor_y else E.row_offset
  let ro2 := if E.cursor_y ≥ ro1 + E.screen_rows then E.cursor_y - E.screen_rows + 1 else ro1
  let co1 := if rx < E.col_offset then rx else E.col_offset
  let co2 := if rx ≥ co1 + E.screen_cols then rx - E.screen_cols + 1 else co1
  { E with rx := rx, row_offset := ro2, col_offset := co2 }

/-- Switch part of move_cursor, with the C key codes (1000 = ARROW_LEFT,
1001 = ARROW_RIGHT, 1002 = ARROW_UP, 1003 = ARROW_DOWN). The C fetches
`row = (cursor_y >= num_rows) ? NULL : &rows[cursor_y]`; the ARROW_RIGHT
conditions `row && cursor_x < row->size` and `row && cursor_x == row->size`
are translated with the row-exists test `cursor_y < num_rows` spelled out. -/
def move_cursor_switch (E : EState) (key : Int) : EState :=
  if key = 1002 then
    if E.cursor_y ≠ 0 then { E with cursor_y := E.cursor_y - 1 } else E
  else if key = 1003 then
    if E.cursor_y < E.num_rows then { E with cursor_y := E.cursor_y + 1 } else E
  else if key = 1000 then
    if E.cursor_x ≠ 0 then { E with cursor_x := E.cursor_x - 1 }
    else if E.cursor_y > 0 then
      { E with cursor_y := E.cursor_y - 1,
               cursor_x := (getRow E.rows (E.cursor_y - 1)).size }
    else E
  else if key = 1001 then
    if E.cursor_y < E.num_rows ∧ E.cursor_x < (getRow E.rows E.cursor_y).size then
      { E with cursor_x := E.cursor_x + 1 }
    else if E.cursor_y < E.num_rows ∧ E.cursor_x = (getRow E.rows E.cursor_y).size then
      { E with cursor_y := E.cursor_y + 1, cursor_x := 0 }
    else E
  else E

/-- move_cursor from the source: the arrow-key switch followed by the
trailing clamp that snaps `cursor_x` to the (possibly new) row length. -/
def move_cursor (E : EState) (key : Int) : EState :=
  let E1 := move_cursor_switch E key
  let rowLen : Int :=
    if E1.cursor_y ≥ E1.num_rows then 0 else (getRow E1.rows E1.cursor_y).size
  if E1.cursor_x > rowLen then { E1 with cursor_x := rowLen } else E1

/-- The `while (times--) move_cursor(...)` loop of the PageUp/PageDown case. -/
def iterate_moves (key : Int) : EState → Nat → EState
  | E, 0 => E
  | E, n + 1 => iterate_moves key (move_cursor E key) n

/-- Editing key events dispatched by process_keypress that mutate buffer or
cursor (save, find and quit are modelled separately). -/
inductive EditKey where
  | enter
  | backspace
  | ctrlH
  | delKey
  | home
  | endKey
  | pageUp
  | pageDown
  | arrowUp
  | arrowDown
  | arrowLeft
  | arrowRight
  | char (c : Char)
deriving DecidableEq

/-- The editing cases of process_keypress. -/
def process_edit_key (E : EState) (k : EditKey) : EState :=
  match k with
  | .enter => insert_newline E
  | .home => { E with cursor_x := 0 }
  | .endKey =>
      if E.cursor_y < E.num_rows then
        { E with cursor_x := (getRow E.rows E.cursor_y).size }
      else E
  | .backspace => delete_char E
  | .ctrlH => delete_char E
  | .delKey => delete_char (move_cursor E 1001)
  | .pageUp =>
      let E1 := { E with cursor_y := E.row_offset }
      iterate_moves 1002 E1 E.screen_rows.toNat
  | .pageDown =>
      let E1 := { E with cursor_y := E.row_offset + E.screen_rows - 1 }
      let E2 := if E1.cursor_y > E1.num_rows then { E1 with cursor_y := E1.num_rows } else E1
      iterate_moves 1003 E2 E.screen_rows.toNat
  | .arrowUp => move_cursor E 1002
  | .arrowDown => move_cursor E 1003
  | .arrowLeft => move_cursor E 1000
  | .arrowRight => move_cursor E 1001
  | .char c => insert_char E c

/-- One iteration of the main loop for an editing key: refresh_screen runs
editor_scroll before process_keypress dispatches the key. -/
def editor_step (E : EState) (k : EditKey) : EState :=
  process_edit_key (editor_scroll E) k

/-- A run of the main loop over a list of editing keys. -/
def run_edit (E : EState) (ks : List EditKey) : EState :=
  ks.foldl editor_step E

/-- editor_init: cursor, offsets and dirty start at zero; the rows come from
editor_open (or none), and the screen dimensions from the terminal. -/
def editor_init (rows : List ERow) (sr sc : Int) : EState :=
  { cursor_x := 0, cursor_y := 0, rx := 0, row_offset := 0, col_offset := 0,
    screen_rows := sr, screen_cols := sc, rows := rows, dirty := 0 }

/-- Outcome of one process_keypress call as far as the quit logic goes. -/
inductive StepOut where
  | running (quit_times : Int)
  | exited (code : Int)
deriving DecidableEq

/-- The quit-confirmation skeleton of process_keypress: key 17 is CTRL-Q.
With a dirty document and a positive counter, a quit press warns, decrements
the counter and returns early (skipping the reset at the bottom of the
function); otherwise a quit press exits with status 0. Every other key falls
through to the trailing `quit_times = QUIT_TIMES` reset. -/
def process_keypress_quit (dirty quit_times : Int) (c : Int) : StepOut :=
  if c = 17 then
    if dirty ≠ 0 ∧ quit_times > 0 then .running (quit_times - 1)
    else .exited 0
  else .running QUIT_TIMES

/-- Feed a list of keys through the quit logic (the document stays dirty or
clean as given, which is what happens during consecutive quit presses). -/
def run_quit (dirty : Int) : Int → List Int → StepOut
  | qt, [] => .running qt
  | qt, c :: rest =>
    match process_keypress_quit dirty qt c with
    | .running qt1 => run_quit dirty qt1 rest
    | .exited n => .exited n

/-- ASCII iscntrl for the values read_keypress can return: control codes are
below 32 or equal to 127 (special keys are ≥ 1000 and are excluded by the
`c < 128` test at the call site). -/
def iscntrl (c : Int) : Bool :=
  (0 ≤ c ∧ c < 32) ∨ c = 127

/-- Outcome of one iteration of the editor_prompt loop. -/
inductive PromptOut where
  | next (buf : List Char)
  | canceled
  | committed (s : List Char)
deriving DecidableEq

/-- One iteration of the editor_prompt loop on keypress `c` with accumulated
input `buf`: DEL (1004), CTRL-H (8) and Backspace (127) trim; Escape (27)
returns NULL; Enter (13) returns the buffer only when it is non-empty and
otherwise keeps looping; a printable byte below 128 is appended; anything
else keeps looping. -/
def prompt_step (buf : List Char) (c : Int) : PromptOut :=
  if c = 1004 ∨ c = 8 ∨ c = 127 then
    .next (if buf.length ≠ 0 then buf.dropLast else buf)
  else if c = 27 then .canceled
  else if c = 13 then
    if buf.length ≠ 0 then .committed buf else .next buf
  else if ¬ iscntrl c ∧ c < 128 then .next (buf ++ [Char.ofNat c.toNat])
  else .next buf

/-- The whole editor_prompt loop over a list of keypresses: `none` means the
input was exhausted with the loop still running, `some none` that the prompt
returned NULL (Escape), `some (some s)` that it committed `s` (Enter). -/
def editor_prompt (buf : List Char) : List Int → Option (Option (List Char))
  | [] => none
  | c :: rest =>
    match prompt_step buf c with
    | .next b => editor_prompt b rest
    | .canceled => some none
    | .committed s => some (some s)

/-- Tail of editor_find: when the prompt returns NULL the saved cursor and
viewport are restored over the state the callback left behind; a committed
query leaves the state as the callback set it. -/
def editor_find_restore (saved E1 : EState) (query : Option (List Char)) : EState :=
  match query with
  | some _ => E1
  | none => { E1 with cursor_x := saved.cursor_x, cursor_y := saved.cursor_y,
                      col_offset := saved.col_offset, row_offset := saved.row_offset }

/-! ### Shared lemmas -/

/-- Helper: the render loop only ever lengthens the accumulator by at least
one cell per input character. -/
theorem render_foldl_length_ge (l : List Char) :
    ∀ acc : List Char, acc.length + l.length ≤ (l.foldl render_step acc).length := by
  induction l with
  | nil => intro acc; simp
  | cons c rest ih =>
      intro acc
      have h := ih (render_step acc c)
      have hstep : acc.length + 1 ≤ (render_step acc c).length := by
        unfold render_step
        split <;> simp
      simp only [List.foldl_cons, List.length_cons]
      omega

/-- Helper: on tab-free input the render loop adds exactly one cell per
character. -/
theorem render_foldl_length_eq (l : List Char) :
    ∀ acc : List Char, '\t' ∉ l → (l.foldl render_step acc).length = acc.length + l.length := by
  induction l with
  | nil => intro acc _; simp
  | cons c rest ih =>
      intro acc hl
      have hc : c ≠ '\t' := fun h => hl (h ▸ List.mem_cons_self c rest)
      have hrest : '\t' ∉ rest := fun h => hl (List.mem_cons_of_mem c h)
      have hstep : render_step acc c = acc ++ [c] := by
        unfold render_step
        simp [hc]
      simp only [List.foldl_cons, hstep, ih (acc ++ [c]) hrest, List.length_append,
        List.length_cons]
      simp
      omega

/-- Helper: editor_scroll leaves the cursor, the rows, the screen dimensions
and the dirty counter unchanged. -/
theorem editor_scroll_frame (E : EState) :
    (editor_scroll E).cursor_x = E.cursor_x ∧ (editor_scroll E).cursor_y = E.cursor_y ∧
      (editor_scroll E).rows = E.rows ∧ (editor_scroll E).screen_rows = E.screen_rows ∧
      (editor_scroll E).screen_cols = E.screen_cols ∧ (editor_scroll E).dirty = E.dirty := by
  unfold editor_scroll
  exact ⟨rfl, rfl, rfl, rfl, rfl, rfl⟩

/-- Helper: after editor_scroll the cursor row lies inside the vertical
window and the rendered column inside the horizontal window, provided both
screen dimensions are positive. -/
theorem editor_scroll_bounds (E : EState) (hr : 0 < E.screen_rows) (hc : 0 < E.screen_cols) :
    (editor_scroll E).row_offset ≤ (editor_scroll E).cursor_y ∧
      (editor_scroll E).cursor_y < (editor_scroll E).row_offset + (editor_scroll E).screen_rows ∧
      (editor_scroll E).col_offset ≤ (editor_scroll E).rx ∧
      (editor_scroll E).rx < (editor_scroll E).col_offset + (editor_scroll E).screen_cols := by
  unfold editor_scroll
  dsimp only
  split_ifs <;> refine ⟨by omega, by omega, by omega, by omega⟩

/-- Helper: the move_cursor switch changes only the cursor fields. -/
theorem move_cursor_switch_frame (E : EState) (key : Int) :
    (move_cursor_switch E key).rows = E.rows ∧
      (move_cursor_switch E key).screen_rows = E.screen_rows ∧
      (move_cursor_switch E key).screen_cols = E.screen_cols ∧
      (move_cursor_switch E key).row_offset = E.row_offset ∧
      (move_cursor_switch E key).col_offset = E.col_offset ∧
      (move_cursor_switch E key).dirty = E.dirty := by
  unfold move_cursor_switch
  split_ifs <;> exact ⟨rfl, rfl, rfl, rfl, rfl, rfl⟩

/-- Helper: move_cursor does not change the rows. -/
theorem move_cursor_rows (E : EState) (key : Int) : (move_cursor E key).rows = E.rows := by
  unfold move_cursor
  dsimp only
  split <;> split <;> simp [(move_cursor_switch_frame E key).1]

/-- Helper: move_cursor does not change the screen height. -/
theorem move_cursor_screen_rows (E : EState) (key : Int) :
    (move_cursor E key).screen_rows = E.screen_rows := by
  unfold move_cursor
  dsimp only
  split <;> split <;> simp [(move_cursor_switch_frame E key).2.1]

/-- Helper: move_cursor does not change the screen width. -/
theorem move_cursor_screen_cols (E : EState) (key : Int) :
    (move_cursor E key).screen_cols = E.screen_cols := by
  unfold move_cursor
  dsimp only
  split <;> split <;> simp [(move_cursor_switch_frame E key).2.2.1]

/-- Helper: move_cursor does not change the vertical offset. -/
theorem move_cursor_row_offset (E : EState) (key : Int) :
    (move_cursor E key).row_offset = E.row_offset := by
  unfold move_cursor
  dsimp only
  split <;> split <;> simp [(move_cursor_switch_frame E key).2.2.2.1]

/-- Helper: move_cursor does not change the horizontal offset. -/
theorem move_cursor_col_offset (E : EState) (key : Int) :
    (move_cursor E key).col_offset = E.col_offset := by
  unfold move_cursor
  dsimp only
  split <;> split <;> simp [(move_cursor_switch_frame E key).2.2.2.2.1]

/-! ### Cursor-bounds invariant machinery -/

/-- Helper: row sizes are never negative. -/
theorem ERow.size_nonneg (r : ERow) : 0 ≤ r.size := by
  unfold ERow.size
  exact Int.natCast_nonneg _

/-- Helper: getRowN after set at the same (in-range) index. -/
theorem getRowN_set_self (l : List ERow) (n : Nat) (r : ERow) (h : n < l.length) :
    getRowN (l.set n r) n = r := by
  induction l generalizing n with
  | nil => simp at h
  | cons a as ih =>
      cases n with
      | zero => rfl
      | succ m => exact ih m (by simpa using h)

/-- Helper: getRowN at the appended position. -/
theorem getRowN_append_self (l : List ERow) (r : ERow) :
    getRowN (l ++ [r]) l.length = r := by
  induction l with
  | nil => rfl
  | cons a as ih => exact ih

/-- Helper: getRowN below the erased index is unchanged. -/
theorem getRowN_eraseIdx_lt (l : List ERow) (n m : Nat) (h : m < n) :
    getRowN (l.eraseIdx n) m = getRowN l m := by
  induction l generalizing n m with
  | nil => rfl
  | cons a as ih =>
      cases n with
      | zero => omega
      | succ k =>
          cases m with
          | zero => rfl
          | succ j => exact ih k j (by omega)

/-- Length of the line under the cursor, taken as 0 when the cursor sits one
past the last line (matching what the trailing clamp of move_cursor uses). -/
def cur_row_len (E : EState) : Int :=
  if E.cursor_y ≥ E.num_rows then 0 else (getRow E.rows E.cursor_y).size

/-- The cursor bounds of the claim: `cursor_x` within `[0, current line
length]` and `cursor_y` within `[0, document line count]`. -/
def CursorInv (E : EState) : Prop :=
  0 ≤ E.cursor_y ∧ E.cursor_y ≤ E.num_rows ∧ 0 ≤ E.cursor_x ∧ E.cursor_x ≤ cur_row_len E

/-- Induction invariant for the main loop: the cursor bounds plus
nonnegativity of the vertical offset (all the page keys need). -/
def StateInv (E : EState) : Prop :=
  CursorInv E ∧ 0 ≤ E.row_offset

/-- Helper: the current row length is never negative. -/
theorem cur_row_len_nonneg (E : EState) : 0 ≤ cur_row_len E := by
  unfold cur_row_len
  split
  · omega
  · exact ERow.size_nonneg _

/-- Helper: CursorInv only depends on the cursor fields and the rows. -/
theorem cursor_inv_of_eq (E F : EState) (hx : F.cursor_x = E.cursor_x)
    (hy : F.cursor_y = E.cursor_y) (hrows : F.rows = E.rows) (h : CursorInv E) :
    CursorInv F := by
  unfold CursorInv cur_row_len EState.num_rows at h ⊢
  rw [hx, hy, hrows]
  exact h

/-- Helper: the switch part of move_cursor keeps the weak cursor bounds
(cursor row in range, cursor column nonnegative). -/
theorem move_cursor_switch_weak (E : EState) (key : Int)
    (hy0 : 0 ≤ E.cursor_y) (hyN : E.cursor_y ≤ E.num_rows) (hx0 : 0 ≤ E.cursor_x) :
    0 ≤ (move_cursor_switch E key).cursor_y ∧
      (move_cursor_switch E key).cursor_y ≤ (move_cursor_switch E key).num_rows ∧
      0 ≤ (move_cursor_switch E key).cursor_x := by
  have hnn := ERow.size_nonneg (getRow E.rows (E.cursor_y - 1))
  unfold move_cursor_switch
  split_ifs <;> simp_all [EState.num_rows] <;> omega

/-- Helper: the trailing clamp of move_cursor establishes the cursor bounds
from the weak ones. -/
theorem move_cursor_clamp (E1 : EState)
    (h1 : 0 ≤ E1.cursor_y) (h2 : E1.cursor_y ≤ E1.num_rows) (h3 : 0 ≤ E1.cursor_x) :
    CursorInv
      (if E1.cursor_x >
          (if E1.cursor_y ≥ E1.num_rows then 0 else (getRow E1.rows E1.cursor_y).size) then
        { E1 with cursor_x :=
            if E1.cursor_y ≥ E1.num_rows then 0 else (getRow E1.rows E1.cursor_y).size }
      else E1) := by
  have hnn : (0 : Int) ≤
      if E1.cursor_y ≥ E1.num_rows then 0 else (getRow E1.rows E1.cursor_y).size := by
    split
    · omega
    · exact ERow.size_nonneg _
  unfold CursorInv cur_row_len
  split_ifs <;> simp_all [EState.num_rows] <;> omega

/-- Helper: move_cursor establishes the cursor bounds from the weak ones. -/
theorem move_cursor_cursor_inv (E : EState) (key : Int)
    (hy0 : 0 ≤ E.cursor_y) (hyN : E.cursor_y ≤ E.num_rows) (hx0 : 0 ≤ E.cursor_x) :
    CursorInv (move_cursor E key) := by
  obtain ⟨h1, h2, h3⟩ := move_cursor_switch_weak E key hy0 hyN hx0
  unfold move_cursor
  dsimp only
  exact move_cursor_clamp (move_cursor_switch E key) h1 h2 h3

/-- Helper: editor_insert_row changes only rows and dirty. -/
theorem editor_insert_row_frame (E : EState) (at_ : Int) (s : List Char) :
    (editor_insert_row E at_ s).cursor_x = E.cursor_x ∧
      (editor_insert_row E at_ s).cursor_y = E.cursor_y ∧
      (editor_insert_row E at_ s).row_offset = E.row_offset ∧
      (editor_insert_row E at_ s).col_offset = E.col_offset ∧
      (editor_insert_row E at_ s).screen_rows = E.screen_rows ∧
      (editor_insert_row E at_ s).screen_cols = E.screen_cols := by
  unfold editor_insert_row
  split_ifs <;> exact ⟨rfl, rfl, rfl, rfl, rfl, rfl⟩

/-- Helper: insert_char changes neither the offsets nor the screen size. -/
theorem insert_char_frame (E : EState) (c : Char) :
    (insert_char E c).row_offset = E.row_offset ∧
      (insert_char E c).col_offset = E.col_offset ∧
      (insert_char E c).screen_rows = E.screen_rows ∧
      (insert_char E c).screen_cols = E.screen_cols := by
  unfold insert_char editor_insert_row
  dsimp only
  split_ifs <;> exact ⟨rfl, rfl, rfl, rfl⟩

/-- Helper: insert_newline changes neither the offsets nor the screen size. -/
theorem insert_newline_frame (E : EState) :
    (insert_newline E).row_offset = E.row_offset ∧
      (insert_newline E).col_offset = E.col_offset ∧
      (insert_newline E).screen_rows = E.screen_rows ∧
      (insert_newline E).screen_cols = E.screen_cols := by
  unfold insert_newline editor_insert_row
  dsimp only
  split_ifs <;> exact ⟨rfl, rfl, rfl, rfl⟩

/-- Helper: delete_char changes neither the offsets nor the screen size. -/
theorem delete_char_frame (E : EState) :
    (delete_char E).row_offset = E.row_offset ∧
      (delete_char E).col_offset = E.col_offset ∧
      (delete_char E).screen_rows = E.screen_rows ∧
      (delete_char E).screen_cols = E.screen_cols := by
  unfold delete_char delete_row
  dsimp only
  split_ifs <;> exact ⟨rfl, rfl, rfl, rfl⟩

/-- Helper: iterate_moves changes neither the rows, the offsets nor the
screen size. -/
theorem iterate_moves_frame (key : Int) (n : Nat) :
    ∀ E : EState, (iterate_moves key E n).rows = E.rows ∧
      (iterate_moves key E n).row_offset = E.row_offset ∧
      (iterate_moves key E n).col_offset = E.col_offset ∧
      (iterate_moves key E n).screen_rows = E.screen_rows ∧
      (iterate_moves key E n).screen_cols = E.screen_cols := by
  induction n with
  | zero => exact fun E => ⟨rfl, rfl, rfl, rfl, rfl⟩
  | succ m ih =>
      intro E
      obtain ⟨h1, h2, h3, h4, h5⟩ := ih (move_cursor E key)
      refine ⟨?_, ?_, ?_, ?_, ?_⟩
      · rw [iterate_moves, h1, move_cursor_rows]
      · rw [iterate_moves, h2, move_cursor_row_offset]
      · rw [iterate_moves, h3, move_cursor_col_offset]
      · rw [iterate_moves, h4, move_cursor_screen_rows]
      · rw [iterate_moves, h5, move_cursor_screen_cols]

/-- Helper: iterate_moves establishes the cursor bounds from the weak ones as
soon as it performs at least one movement (every move_cursor call ends in the
clamp). -/
theorem iterate_moves_inv (key : Int) (n : Nat) : ∀ E : EState,
    0 ≤ E.cursor_y → E.cursor_y ≤ E.num_rows → 0 ≤ E.cursor_x →
    CursorInv (iterate_moves key E (n + 1)) := by
  induction n with
  | zero =>
      intro E hy0 hyN hx0
      exact move_cursor_cursor_inv E key hy0 hyN hx0
  | succ m ih =>
      intro E hy0 hyN hx0
      obtain ⟨h1, h2, h3, _⟩ := move_cursor_cursor_inv E key hy0 hyN hx0
      exact ih (move_cursor E key) h1 h2 h3

/-- Helper: the length of the row produced by row_insert_char is one more
than the length of the input row. -/
theorem row_insert_char_length (r : ERow) (at_ : Int) (c : Char) :
    ((row_insert_char r at_ c).1).chars.length = r.chars.length + 1 := by
  unfold row_insert_char ERow.size
  dsimp only
  split_ifs with h
  · exact List.length_insertIdx _ _ (by omega)
  · exact List.length_insertIdx _ _ (by omega)

/-- Helper: the length of the row produced by an in-range row_delete_char is
one less than the length of the input row. -/
theorem row_delete_char_length (r : ERow) (at_ : Int)
    (h0 : 0 ≤ at_) (hlt : at_ < r.size) :
    ((row_delete_char r at_).1).chars.length = r.chars.length - 1 := by
  unfold row_delete_char ERow.size at *
  rw [if_neg (by omega)]
  dsimp only
  rw [List.length_take, List.length_append, List.length_take, List.length_drop]
  omega

/-- Helper: insert_newline preserves the cursor bounds. -/
theorem insert_newline_cursor_inv (E : EState) (h : CursorInv E) :
    CursorInv (insert_newline E) := by
  obtain ⟨hy0, hyN, hx0, hxle⟩ := h
  unfold EState.num_rows at hyN
  unfold insert_newline
  dsimp only
  by_cases hcx : E.cursor_x = 0
  · rw [if_pos hcx]
    unfold editor_insert_row
    rw [if_neg (by unfold EState.num_rows; omega)]
    unfold CursorInv cur_row_len EState.num_rows
    dsimp only
    have hlen : (E.rows.insertIdx E.cursor_y.toNat ⟨[]⟩).length = E.rows.length + 1 :=
      List.length_insertIdx _ _ (by omega)
    rw [hlen]
    refine ⟨by omega, by push_cast; omega, le_refl 0, ?_⟩
    split
    · omega
    · exact ERow.size_nonneg _
  · rw [if_neg hcx]
    have hcylt : E.cursor_y < (E.rows.length : Int) := by
      by_contra hge
      unfold cur_row_len EState.num_rows at hxle
      rw [if_pos (by omega)] at hxle
      omega
    unfold editor_insert_row
    dsimp only
    rw [if_neg (by unfold EState.num_rows; omega)]
    unfold CursorInv cur_row_len EState.num_rows
    dsimp only
    have hlen : ((E.rows.insertIdx (E.cursor_y + 1).toNat
        ⟨(getRow E.rows E.cursor_y).chars.drop E.cursor_x.toNat⟩).set E.cursor_y.toNat
          ⟨(getRow E.rows E.cursor_y).chars.take E.cursor_x.toNat⟩).length =
        E.rows.length + 1 := by
      rw [List.length_set]
      exact List.length_insertIdx _ _ (by omega)
    rw [hlen]
    refine ⟨by omega, by push_cast; omega, le_refl 0, ?_⟩
    split
    · omega
    · exact ERow.size_nonneg _

/-- Helper: insert_char preserves the cursor bounds. -/
theorem insert_char_cursor_inv (E : EState) (c : Char) (h : CursorInv E) :
    CursorInv (insert_char E c) := by
  obtain ⟨hy0, hyN, hx0, hxle⟩ := h
  unfold EState.num_rows at hyN
  unfold insert_char
  dsimp only
  by_cases hcy : E.cursor_y = E.num_rows
  · rw [if_pos hcy]
    unfold EState.num_rows at hcy
    have hcx0 : E.cursor_x = 0 := by
      unfold cur_row_len EState.num_rows at hxle
      rw [if_pos (by omega)] at hxle
      omega
    unfold editor_insert_row
    rw [if_neg (by unfold EState.num_rows; omega)]
    dsimp only
    have hNt : (E.num_rows).toNat = E.rows.length := by unfold EState.num_rows; omega
    rw [hNt, List.insertIdx_length_self]
    unfold CursorInv cur_row_len EState.num_rows getRow
    dsimp only
    have hyt : E.cursor_y.toNat = E.rows.length := by omega
    rw [hyt, getRowN_append_self]
    simp only [List.length_set, List.length_append, List.length_singleton]
    refine ⟨by omega, by push_cast; omega, by omega, ?_⟩
    rw [if_neg (by push_cast; omega)]
    rw [getRowN_set_self _ _ _ (by simp)]
    have hrd := row_insert_char_length ⟨[]⟩ E.cursor_x c
    unfold ERow.size
    rw [hrd]
    simp only [List.length_nil]
    omega
  · rw [if_neg hcy]
    unfold EState.num_rows at hcy
    have hcylt : E.cursor_y < (E.rows.length : Int) := by omega
    unfold CursorInv cur_row_len EState.num_rows getRow
    dsimp only
    rw [List.length_set]
    refine ⟨by omega, by omega, by omega, ?_⟩
    rw [if_neg (by omega)]
    rw [getRowN_set_self _ _ _ (by omega)]
    have hrd := row_insert_char_length (getRowN E.rows E.cursor_y.toNat) E.cursor_x c
    unfold ERow.size
    rw [hrd]
    unfold cur_row_len EState.num_rows getRow ERow.size at hxle
    rw [if_neg (by omega)] at hxle
    push_cast
    push_cast at hxle
    omega

/-- Helper: delete_char preserves the cursor bounds. -/
theorem delete_char_cursor_inv (E : EState) (h : CursorInv E) :
    CursorInv (delete_char E) := by
  obtain ⟨hy0, hyN, hx0, hxle⟩ := h
  unfold EState.num_rows at hyN
  unfold delete_char
  dsimp only
  split_ifs with h1 h2 h3
  · exact ⟨hy0, by unfold EState.num_rows; omega, hx0, hxle⟩
  · exact ⟨hy0, by unfold EState.num_rows; omega, hx0, hxle⟩
  · unfold EState.num_rows at h1
    have hcylt : E.cursor_y < (E.rows.length : Int) := by omega
    unfold cur_row_len EState.num_rows getRow ERow.size at hxle
    rw [if_neg (by omega)] at hxle
    unfold CursorInv cur_row_len EState.num_rows getRow
    dsimp only
    rw [List.length_set]
    refine ⟨by omega, by omega, by omega, ?_⟩
    rw [if_neg (by omega)]
    rw [getRowN_set_self _ _ _ (by omega)]
    have hrd := row_delete_char_length (getRowN E.rows E.cursor_y.toNat) (E.cursor_x - 1)
      (by omega) (by unfold ERow.size; push_cast at hxle ⊢; omega)
    unfold ERow.size
    rw [hrd]
    push_cast at hxle ⊢
    omega
  · unfold EState.num_rows at h1
    have hcx0 : E.cursor_x = 0 := by omega
    have hcy1 : 1 ≤ E.cursor_y := by
      have : ¬ E.cursor_y = 0 := fun hz => h2 ⟨hcx0, hz⟩
      omega
    have hcylt : E.cursor_y < (E.rows.length : Int) := by omega
    unfold delete_row row_append_string
    dsimp only
    rw [if_neg (by unfold EState.num_rows; rw [List.length_set]; omega)]
    unfold CursorInv cur_row_len EState.num_rows getRow
    dsimp only
    rw [List.length_eraseIdx_of_lt (by rw [List.length_set]; omega)]
    rw [List.length_set]
    refine ⟨by omega, by push_cast; omega, ERow.size_nonneg _, ?_⟩
    rw [if_neg (by push_cast; omega)]
    rw [getRowN_eraseIdx_lt _ _ _ (by omega)]
    rw [getRowN_set_self _ _ _ (by omega)]
    unfold ERow.size
    simp only [List.length_append]
    push_cast
    omega

/-- Helper: editor_scroll preserves the loop invariant and pins the vertical
offset at or below the cursor row (given at least one screen row). -/
theorem editor_scroll_inv (E : EState) (h : StateInv E) (hr : 1 ≤ E.screen_rows) :
    StateInv (editor_scroll E) ∧ (editor_scroll E).row_offset ≤ (editor_scroll E).cursor_y := by
  obtain ⟨hcur, hro⟩ := h
  obtain ⟨hx, hy, hrows, hsr, hsc, hd⟩ := editor_scroll_frame E
  have hcur2 : CursorInv (editor_scroll E) := cursor_inv_of_eq E _ hx hy hrows hcur
  obtain ⟨hy0, _, _, _⟩ := hcur
  have hbounds : 0 ≤ (editor_scroll E).row_offset ∧
      (editor_scroll E).row_offset ≤ E.cursor_y := by
    unfold editor_scroll
    dsimp only
    split_ifs <;> constructor <;> omega
  exact ⟨⟨hcur2, hbounds.1⟩, by rw [hy]; exact hbounds.2⟩

/-- Helper: dispatching one editing key preserves the loop invariant and the
screen dimensions, given the post-scroll fact that the vertical offset is at
or below the cursor row. -/
theorem process_edit_key_inv (S : EState) (k : EditKey) (hS : StateInv S)
    (hroS : S.row_offset ≤ S.cursor_y) (hr : 1 ≤ S.screen_rows) :
    StateInv (process_edit_key S k) ∧ (process_edit_key S k).screen_rows = S.screen_rows := by
  obtain ⟨⟨hy0, hyN, hx0, hxle⟩, hro⟩ := hS
  cases k with
  | enter =>
      unfold process_edit_key
      dsimp only
      refine ⟨⟨insert_newline_cursor_inv S ⟨hy0, hyN, hx0, hxle⟩, ?_⟩, (insert_newline_frame S).2.2.1⟩
      rw [(insert_newline_frame S).1]
      exact hro
  | home =>
      refine ⟨⟨⟨hy0, hyN, le_refl 0, cur_row_len_nonneg _⟩, hro⟩, rfl⟩
  | endKey =>
      unfold process_edit_key
      dsimp only
      split_ifs with hlt
      · refine ⟨⟨⟨hy0, hyN, ERow.size_nonneg _, ?_⟩, hro⟩, rfl⟩
        unfold cur_row_len
        rw [if_neg (by unfold EState.num_rows at hlt ⊢; dsimp only; omega)]
      · exact ⟨⟨⟨hy0, hyN, hx0, hxle⟩, hro⟩, rfl⟩
  | backspace =>
      unfold process_edit_key
      dsimp only
      refine ⟨⟨delete_char_cursor_inv S ⟨hy0, hyN, hx0, hxle⟩, ?_⟩, (delete_char_frame S).2.2.1⟩
      rw [(delete_char_frame S).1]
      exact hro
  | ctrlH =>
      unfold process_edit_key
      dsimp only
      refine ⟨⟨delete_char_cursor_inv S ⟨hy0, hyN, hx0, hxle⟩, ?_⟩, (delete_char_frame S).2.2.1⟩
      rw [(delete_char_frame S).1]
      exact hro
  | delKey =>
      unfold process_edit_key
      dsimp only
      have hmv := move_cursor_cursor_inv S 1001 hy0 hyN hx0
      refine ⟨⟨delete_char_cursor_inv _ hmv, ?_⟩, ?_⟩
      · rw [(delete_char_frame _).1, move_cursor_row_offset]
        exact hro
      · rw [(delete_char_frame _).2.2.1, move_cursor_screen_rows]
  | pageUp =>
      unfold process_edit_key
      dsimp only
      obtain ⟨m, hm⟩ : ∃ m, S.screen_rows.toNat = m + 1 := ⟨S.screen_rows.toNat - 1, by omega⟩
      rw [hm]
      obtain ⟨hfrows, hfro, hfco, hfsr, hfsc⟩ := iterate_moves_frame 1002 (m + 1)
        { S with cursor_y := S.row_offset }
      refine ⟨⟨iterate_moves_inv 1002 m _ hro
          (by unfold EState.num_rows at hyN ⊢; dsimp only; omega) hx0, ?_⟩, ?_⟩
      · rw [hfro]
        exact hro
      · rw [hfsr]
  | pageDown =>
      unfold process_edit_key
      dsimp only
      obtain ⟨m, hm⟩ : ∃ m, S.screen_rows.toNat = m + 1 := ⟨S.screen_rows.toNat - 1, by omega⟩
      rw [hm]
      split_ifs with hclamp
      · obtain ⟨hfrows, hfro, hfco, hfsr, hfsc⟩ := iterate_moves_frame 1003 (m + 1) _
        refine ⟨⟨iterate_moves_inv 1003 m _ (by unfold EState.num_rows; dsimp only; omega)
            (by unfold EState.num_rows; dsimp only; omega) hx0, ?_⟩, ?_⟩
        · rw [hfro]
          exact hro
        · rw [hfsr]
      · obtain ⟨hfrows, hfro, hfco, hfsr, hfsc⟩ := iterate_moves_frame 1003 (m + 1) _
        refine ⟨⟨iterate_moves_inv 1003 m _ (by dsimp only; omega)
            (by unfold EState.num_rows at hclamp ⊢; dsimp only at hclamp ⊢; omega) hx0, ?_⟩, ?_⟩
        · rw [hfro]
          exact hro
        · rw [hfsr]
  | arrowUp =>
      unfold process_edit_key
      dsimp only
      refine ⟨⟨move_cursor_cursor_inv S 1002 hy0 hyN hx0, ?_⟩, move_cursor_screen_rows S 1002⟩
      rw [move_cursor_row_offset]
      exact hro
  | arrowDown =>
      unfold process_edit_key
      dsimp only
      refine ⟨⟨move_cursor_cursor_inv S 1003 hy0 hyN hx0, ?_⟩, move_cursor_screen_rows S 1003⟩
      rw [move_cursor_row_offset]
      exact hro
  | arrowLeft =>
      unfold process_edit_key
      dsimp only
      refine ⟨⟨move_cursor_cursor_inv S 1000 hy0 hyN hx0, ?_⟩, move_cursor_screen_rows S 1000⟩
      rw [move_cursor_row_offset]
      exact hro
  | arrowRight =>
      unfold process_edit_key
      dsimp only
      refine ⟨⟨move_cursor_cursor_inv S 1001 hy0 hyN hx0, ?_⟩, move_cursor_screen_rows S 1001⟩
      rw [move_cursor_row_offset]
      exact hro
  | char c =>
      unfold process_edit_key
      dsimp only
      refine ⟨⟨insert_char_cursor_inv S c ⟨hy0, hyN, hx0, hxle⟩, ?_⟩, (insert_char_frame S c).2.2.1⟩
      rw [(insert_char_frame S c).1]
      exact hro

/-- Helper: one main-loop iteration (scroll, then dispatch) preserves the
loop invariant and the screen height. -/
theorem editor_step_inv (E : EState) (k : EditKey) (h : StateInv E) (hr : 1 ≤ E.screen_rows) :
    StateInv (editor_step E k) ∧ (editor_step E k).screen_rows = E.screen_rows := by
  obtain ⟨hS, hroS⟩ := editor_scroll_inv E h hr
  have hsr : (editor_scroll E).screen_rows = E.screen_rows := (editor_scroll_frame E).2.2.2.1
  obtain ⟨h1, h2⟩ := process_edit_key_inv (editor_scroll E) k hS hroS (by rw [hsr]; exact hr)
  exact ⟨h1, by rw [editor_step, h2, hsr]⟩

/-- Helper: a whole run of the main loop preserves the loop invariant. -/
theorem run_edit_inv (ks : List EditKey) : ∀ E : EState,
    StateInv E → 1 ≤ E.screen_rows → StateInv (run_edit E ks) := by
  induction ks with
  | nil => exact fun E h _ => h
  | cons k rest ih =>
      intro E h hr
      obtain ⟨h1, h2⟩ := editor_step_inv E k h hr
      exact ih (editor_step E k) h1 (by rw [h2]; exact hr)

/-! ### Claim theorems -/

/-- C1: the reported serialized length sums `rsize + 1` over the rows while
the bytes put into the buffer are each row's `chars` plus a newline, so on a
one-line document containing a single tab the reported length is 9 although
the serialized line contents amount to 2 bytes — the reported total length
does not equal the length of the produced stream, refuting the claim. -/
theorem rows_to_string_length_mismatch :
    (rows_to_string [⟨['\t']⟩]).2 = 9 ∧
      ((rows_to_string [⟨['\t']⟩]).1.length : Int) = 2 ∧
      (rows_to_string [⟨['\t']⟩]).2 ≠ ((rows_to_string [⟨['\t']⟩]).1.length : Int) := by
  refine ⟨by decide, by decide, by decide⟩

/-- C2: evaluated on the line "ab" at logical column 0, the round trip
`rx_to_cx (line, cx_to_rx (line, 0))` yields 2 (the line length), not 0: the
rx_to_cx of the source never stops early (its `rx` argument is unread), so
the round-trip law fails. -/
theorem rx_to_cx_roundtrip_fails :
    rx_to_cx ⟨['a', 'b']⟩ (cx_to_rx ⟨['a', 'b']⟩ 0) = 2 ∧
      cx_to_rx ⟨['a', 'b']⟩ 0 = 0 := by
  refine ⟨by decide, by decide⟩

/-- C3: in the one-line document "abc" a first forward search for "b" finds
the match on row 0 (setting last_match to 0), but the next forward search
step increments the row index to 1 without wrapping back to row 0 — the
source only wraps in the backward direction — and reads `E.rows[1]` out of
bounds (modelled as `none`) instead of re-finding the same match. -/
theorem find_forward_wrap_out_of_bounds :
    find_callback ['b'] 98 ⟨-1, 1⟩ (editor_init [⟨['a', 'b', 'c']⟩] 5 10) =
      some (⟨0, 1⟩,
        { cursor_x := 3, cursor_y := 0, rx := 0, row_offset := 1, col_offset := 0,
          screen_rows := 5, screen_cols := 10, rows := [⟨['a', 'b', 'c']⟩], dirty := 0 }) ∧
      ((find_callback ['b'] 98 ⟨-1, 1⟩ (editor_init [⟨['a', 'b', 'c']⟩] 5 10)).bind
        (fun p => find_callback ['b'] 1001 p.1 p.2)) = none := by
  refine ⟨by decide, by decide⟩

/-- C5: searching the one-line document "abc" for "a" moves the cursor to row
0 but sets the logical column to 3 (the line length) rather than 0, because
rx_to_cx ignores the match offset and always returns `row->size`; the
claimed cursor column (the logical column of the match in the rendered text)
would be 0. -/
theorem find_match_cursor_column_wrong :
    ((find_callback ['a'] 97 ⟨-1, 1⟩ (editor_init [⟨['a', 'b', 'c']⟩] 5 10)).map
        (fun p => (p.2.cursor_y, p.2.cursor_x))) = some (0, 3) ∧ (3 : Int) ≠ 0 := by
  refine ⟨by decide, by decide⟩

/-- C7: deleting at column `at = size` is not a no-op: on the row "a" with
`at = 1` the guard `at > size` passes, the buffer shift moves nothing, but
`size` is still decremented and `dirty` incremented, so the row's logical
content shrinks from "a" to the empty string. -/
theorem row_delete_char_at_size_mutates :
    row_delete_char ⟨['a']⟩ 1 = (⟨[]⟩, 1) ∧ (⟨['a']⟩ : ERow) ≠ ⟨[]⟩ := by
  refine ⟨by decide, by decide⟩

/-- C4 counterexample: with a dirty document (dirty = 1) and the counter at
its initial value 3, three consecutive quit presses leave the editor running
with the counter at 0 — they do not terminate the process, refuting the
claim that exactly three consecutive quit presses terminate it. -/
theorem quit_three_presses_do_not_exit :
    run_quit 1 3 [17, 17, 17] = .running 0 ∧
      run_quit 1 3 [17, 17, 17] ≠ .exited 0 := by
  refine ⟨by decide, by decide⟩

/-- C4 (amended): with a dirty document the first quit press and the three
confirmation presses — four consecutive quit presses in total — terminate
the process with success status, while three do not; any other keypress
resets the counter to 3 so that four fresh consecutive presses are again
required (as long as the document stays dirty); with a clean document a
single quit press terminates with success status. -/
theorem quit_confirmation_four_presses (dirty : Int) (h : dirty ≠ 0) :
    run_quit dirty 3 [17, 17, 17, 17] = .exited 0 ∧
      run_quit dirty 3 [17, 17, 17] = .running 0 ∧
      (∀ qt c : Int, c ≠ 17 → process_keypress_quit dirty qt c = .running 3) ∧
      (∀ qt c : Int, c ≠ 17 → run_quit dirty qt [c, 17, 17, 17, 17] = .exited 0) ∧
      (∀ qt : Int, process_keypress_quit 0 qt 17 = .exited 0) := by
  refine ⟨?_, ?_, ?_, ?_, ?_⟩
  · simp [run_quit, process_keypress_quit, h]
  · simp [run_quit, process_keypress_quit, h]
  · intro qt c hc
    simp [process_keypress_quit, hc, QUIT_TIMES]
  · intro qt c hc
    simp [run_quit, process_keypress_quit, hc, h, QUIT_TIMES]
  · intro qt
    simp [process_keypress_quit]

/-- C4 witness: the amended quit behaviour at dirty = 1, with the reset
checked for the ordinary key 65. -/
theorem quit_confirmation_witness :
    run_quit 1 3 [17, 17, 17, 17] = .exited 0 ∧
      process_keypress_quit 1 0 65 = .running 3 := by
  exact ⟨(quit_confirmation_four_presses 1 (by decide)).1,
    (quit_confirmation_four_presses 1 (by decide)).2.2.1 0 65 (by decide)⟩

/-- C6 counterexample: the row "1234567" followed by a tab has `rsize = size
= 8` — the tab lands on rendered column 7 and expands to a single space — so
equality of the two lengths does not imply the absence of tabs, refuting the
claimed equivalence. -/
theorem render_length_eq_with_tab :
    ¬ (((⟨['1', '2', '3', '4', '5', '6', '7', '\t']⟩ : ERow).rsize =
          (⟨['1', '2', '3', '4', '5', '6', '7', '\t']⟩ : ERow).size) ↔
        '\t' ∉ ['1', '2', '3', '4', '5', '6', '7', '\t']) := by
  decide

/-- C6 (amended): for every row the rendered length is at least the logical
length, and if the row contains no tab the two lengths are equal; the
converse fails (a tab can expand to exactly one space), so no-tab is
sufficient but not necessary for equality. -/
theorem render_length_ge (r : ERow) :
    r.size ≤ r.rsize ∧ ('\t' ∉ r.chars → r.rsize = r.size) := by
  constructor
  · have h := render_foldl_length_ge r.chars []
    simp only [List.length_nil, Nat.zero_add] at h
    unfold ERow.rsize ERow.size ERow.render
    exact_mod_cast h
  · intro hn
    have h := render_foldl_length_eq r.chars [] hn
    simp only [List.length_nil, Nat.zero_add] at h
    unfold ERow.rsize ERow.size ERow.render
    exact_mod_cast h

/-- C6 witness: the amended statement evaluated on the tab-free row "ab". -/
theorem render_length_witness :
    (⟨['a', 'b']⟩ : ERow).size ≤ (⟨['a', 'b']⟩ : ERow).rsize ∧
      (⟨['a', 'b']⟩ : ERow).rsize = (⟨['a', 'b']⟩ : ERow).size := by
  exact ⟨(render_length_ge ⟨['a', 'b']⟩).1, (render_length_ge ⟨['a', 'b']⟩).2 (by decide)⟩

/-- C8: for any prior offsets and any cursor position reached by one
single-step cursor movement from any state, running editor_scroll leaves the
rendered cursor row in `[row_offset, row_offset + screen_rows)` and the
rendered cursor column in `[col_offset, col_offset + screen_cols)`, provided
both screen dimensions are positive. -/
theorem scroll_cursor_visible (E : EState) (key : Int)
    (hr : 0 < E.screen_rows) (hc : 0 < E.screen_cols) :
    (editor_scroll (move_cursor E key)).row_offset ≤
        (editor_scroll (move_cursor E key)).cursor_y ∧
      (editor_scroll (move_cursor E key)).cursor_y <
        (editor_scroll (move_cursor E key)).row_offset +
          (editor_scroll (move_cursor E key)).screen_rows ∧
      (editor_scroll (move_cursor E key)).col_offset ≤ (editor_scroll (move_cursor E key)).rx ∧
      (editor_scroll (move_cursor E key)).rx <
        (editor_scroll (move_cursor E key)).col_offset +
          (editor_scroll (move_cursor E key)).screen_cols := by
  refine editor_scroll_bounds (move_cursor E key) ?_ ?_
  · rw [move_cursor_screen_rows]
    exact hr
  · rw [move_cursor_screen_cols]
    exact hc

/-- C8 witness: the scroll invariant at a concrete two-row state whose
cursor has just moved one step down. -/
theorem scroll_cursor_visible_witness :
    (editor_scroll (move_cursor (editor_init [⟨['a', '\t', 'b']⟩, ⟨['c']⟩] 2 4) 1003)).row_offset ≤
        (editor_scroll (move_cursor (editor_init [⟨['a', '\t', 'b']⟩, ⟨['c']⟩] 2 4) 1003)).cursor_y ∧
      (editor_scroll (move_cursor (editor_init [⟨['a', '\t', 'b']⟩, ⟨['c']⟩] 2 4) 1003)).cursor_y <
        (editor_scroll (move_cursor (editor_init [⟨['a', '\t', 'b']⟩, ⟨['c']⟩] 2 4) 1003)).row_offset +
          (editor_scroll (move_cursor (editor_init [⟨['a', '\t', 'b']⟩, ⟨['c']⟩] 2 4) 1003)).screen_rows ∧
      (editor_scroll (move_cursor (editor_init [⟨['a', '\t', 'b']⟩, ⟨['c']⟩] 2 4) 1003)).col_offset ≤
        (editor_scroll (move_cursor (editor_init [⟨['a', '\t', 'b']⟩, ⟨['c']⟩] 2 4) 1003)).rx ∧
      (editor_scroll (move_cursor (editor_init [⟨['a', '\t', 'b']⟩, ⟨['c']⟩] 2 4) 1003)).rx <
        (editor_scroll (move_cursor (editor_init [⟨['a', '\t', 'b']⟩, ⟨['c']⟩] 2 4) 1003)).col_offset +
          (editor_scroll (move_cursor (editor_init [⟨['a', '\t', 'b']⟩, ⟨['c']⟩] 2 4) 1003)).screen_cols := by
  exact scroll_cursor_visible (editor_init [⟨['a', '\t', 'b']⟩, ⟨['c']⟩] 2 4) 1003
    (by decide) (by decide)

/-- C10: in the modal prompt, Enter on an empty buffer neither commits nor
ends the loop (the loop simply continues with the same empty buffer); a
non-null result is returned only by Enter on a non-empty buffer (and equals
that buffer); the prompt returns NULL exactly on Escape; and on the NULL
outcome editor_find restores the saved cursor position and viewport
offsets. -/
theorem prompt_enter_escape_policy :
    (∀ ks : List Int, editor_prompt [] (13 :: ks) = editor_prompt [] ks) ∧
      (∀ (buf s : List Char) (c : Int),
        prompt_step buf c = .committed s → s = buf ∧ s ≠ [] ∧ c = 13) ∧
      (∀ (buf : List Char) (c : Int), prompt_step buf c = .canceled ↔ c = 27) ∧
      (∀ saved E1 : EState,
        (editor_find_restore saved E1 none).cursor_x = saved.cursor_x ∧
          (editor_find_restore saved E1 none).cursor_y = saved.cursor_y ∧
          (editor_find_restore saved E1 none).col_offset = saved.col_offset ∧
          (editor_find_restore saved E1 none).row_offset = saved.row_offset) := by
  refine ⟨?_, ?_, ?_, ?_⟩
  · intro ks
    simp [editor_prompt, prompt_step]
  · intro buf s c h
    unfold prompt_step at h
    split_ifs at h with h1 h2 h3 h4 h5 <;> simp_all
  · intro buf c
    constructor
    · intro h
      unfold prompt_step at h
      split_ifs at h <;> simp_all
    · intro h
      subst h
      simp [prompt_step]
  · intro saved E1
    exact ⟨rfl, rfl, rfl, rfl⟩

/-- C10 witness: Enter on the empty buffer keeps the concrete prompt run
going, and the committed-result law applied at buffer "a" with Enter. -/
theorem prompt_enter_escape_witness :
    editor_prompt [] [13, 97, 13] = editor_prompt [] [97, 13] ∧
      ((['a'] : List Char) = ['a'] ∧ (['a'] : List Char) ≠ [] ∧ (13 : Int) = 13) := by
  exact ⟨prompt_enter_escape_policy.1 [97, 13],
    prompt_enter_escape_policy.2.1 ['a'] ['a'] 13 (by decide)⟩

/-- C9: starting from a freshly initialized editor over any loaded rows (with
a positive screen height, as guaranteed by the two reserved status rows),
after any sequence of editing keys — character insert, backward and forward
delete, newline insert (and the line merge both deletes perform at column 0),
arrow movement, Home, End and the Page keys — cursor_x lies within
`[0, current line length]` (taking length 0 when the cursor is one past the
last line) and cursor_y lies within `[0, document line count]`. -/
theorem cursor_in_bounds_after_edits (rows : List ERow) (sr sc : Int)
    (ks : List EditKey) (hr : 1 ≤ sr) :
    0 ≤ (run_edit (editor_init rows sr sc) ks).cursor_x ∧
      (run_edit (editor_init rows sr sc) ks).cursor_x ≤
        cur_row_len (run_edit (editor_init rows sr sc) ks) ∧
      0 ≤ (run_edit (editor_init rows sr sc) ks).cursor_y ∧
      (run_edit (editor_init rows sr sc) ks).cursor_y ≤
        (run_edit (editor_init rows sr sc) ks).num_rows := by
  have hinit : StateInv (editor_init rows sr sc) := by
    unfold StateInv CursorInv cur_row_len editor_init EState.num_rows
    dsimp only
    refine ⟨⟨le_refl 0, Int.natCast_nonneg _, le_refl 0, ?_⟩, le_refl 0⟩
    split
    · exact le_refl 0
    · exact ERow.size_nonneg _
  obtain ⟨⟨h1, h2, h3, h4⟩, _⟩ := run_edit_inv ks (editor_init rows sr sc) hinit hr
  exact ⟨h3, h4, h1, h2⟩

/-- C9 witness: the cursor bounds after a concrete mixed key sequence on a
one-line document. -/
theorem cursor_in_bounds_witness :
    0 ≤ (run_edit (editor_init [⟨['a', '\t', 'b']⟩] 3 5)
        [.enter, .char 'x', .pageUp, .delKey, .arrowLeft, .backspace]).cursor_x ∧
      (run_edit (editor_init [⟨['a', '\t', 'b']⟩] 3 5)
        [.enter, .char 'x', .pageUp, .delKey, .arrowLeft, .backspace]).cursor_x ≤
        cur_row_len (run_edit (editor_init [⟨['a', '\t', 'b']⟩] 3 5)
          [.enter, .char 'x', .pageUp, .delKey, .arrowLeft, .backspace]) ∧
      0 ≤ (run_edit (editor_init [⟨['a', '\t', 'b']⟩] 3 5)
        [.enter, .char 'x', .pageUp, .delKey, .arrowLeft, .backspace]).cursor_y ∧
      (run_edit (editor_init [⟨['a', '\t', 'b']⟩] 3 5)
        [.enter, .char 'x', .pageUp, .delKey, .arrowLeft, .backspace]).cursor_y ≤
        (run_edit (editor_init [⟨['a', '\t', 'b']⟩] 3 5)
          [.enter, .char 'x', .pageUp, .delKey, .arrowLeft, .backspace]).num_rows := by
  exact cursor_in_bounds_after_edits [⟨['a', '\t', 'b']⟩] 3 5
    [.enter, .char 'x', .pageUp, .delKey, .arrowLeft, .backspace] (by decide)

end TxtEdit
